import Mathlib

/-!
Verification development for the binary-option replication core of the
`polyarb` repository (`src/replication.py`).

Numbers are modelled as exact rationals (`ℚ`): every claim under study is
algebraic, and the Python code performs only field operations and order
comparisons on its floats.  Strings are modelled as `List Char`.  Fallible
Python code (raising `ValueError` / `KeyError`) is modelled with
`Except String`.  All recursive functions are fuel-structural so that the
kernel can evaluate them on concrete inputs.
-/

set_option maxHeartbeats 1000000

namespace Polyarb

/-- Decimal digit characters of a natural number, most significant first;
fuel-structural model of Python's decimal rendering of an integer
(`fuel` is an upper bound on the number, so recursion is structural). -/
def natCharsAux : ℕ → ℕ → List Char
  | 0, _ => []
  | fuel + 1, n =>
    if n < 10 then [Char.ofNat (48 + n)]
    else natCharsAux fuel (n / 10) ++ [Char.ofNat (48 + n % 10)]

/-- Decimal digit characters of a natural number (e.g. `10500 ↦ "10500"`). -/
def natChars (n : ℕ) : List Char := natCharsAux (n + 1) n

/-- Decimal expansion of a fractional part `0 ≤ q < 1`, with fuel bounding the
number of emitted digits. -/
def fracCharsAux : ℕ → ℚ → List Char
  | 0, _ => []
  | fuel + 1, q =>
    if q = 0 then []
    else
      let d := (q * 10).num.toNat / (q * 10).den
      Char.ofNat (48 + d) :: fracCharsAux fuel (q * 10 - (d : ℚ))

/-- Rendering of a rational the way Python's `str()` renders the
corresponding float value, e.g. `10500 ↦ "10500.0"`.  This is exact for the
integer-valued strikes the claims are about; shortest-round-trip and
exponent float notation (magnitudes `≥ 1e16`) are outside the scope of the
claims that mention the note string, which are proved for integer strikes. -/
def pyFloatChars (q : ℚ) : List Char :=
  let m := |q|
  let ip := m.num.toNat / m.den
  let core := natChars ip ++ '.' :: (if m - (ip : ℚ) = 0 then ['0'] else fracCharsAux 17 (m - (ip : ℚ)))
  if q < 0 then '-' :: core else core

/-- Value of a list of decimal digit characters (`"10500" ↦ 10500`). -/
def digitsVal (l : List Char) : ℕ := l.foldl (fun a c => 10 * a + (c.toNat - 48)) 0

/-- Python's `float()` applied to a matched numeric string of the shape
`digits` or `digits.digits` (the only shapes the regex group can produce). -/
def parseFloatChars (l : List Char) : ℚ :=
  let ip := l.takeWhile (fun c => c != '.')
  match l.dropWhile (fun c => c != '.') with
  | [] => (digitsVal ip : ℚ)
  | _ :: fr => (digitsVal ip : ℚ) + (digitsVal fr : ℚ) / (10 : ℚ) ^ fr.length

/-- One attempted match of the regex tail `\d+\.?\d*\)` at the position just
after an opening parenthesis: returns the captured group and the remainder
after the closing parenthesis. -/
def tryNum (l : List Char) : Option (List Char × List Char) :=
  if l.takeWhile (fun c => c.isDigit) = [] then none
  else
    match l.dropWhile (fun c => c.isDigit) with
    | [] => none
    | c :: r =>
      if c = ')' then some (l.takeWhile (fun c => c.isDigit), r)
      else if c = '.' then
        match r.dropWhile (fun c => c.isDigit) with
        | [] => none
        | c2 :: r2 =>
          if c2 = ')' then
            some (l.takeWhile (fun c => c.isDigit) ++ '.' :: r.takeWhile (fun c => c.isDigit), r2)
          else none
      else none

/-- Scanner for `re.findall` of the pattern matching a parenthesized number:
scan left to right, at each `(` try to match a number followed by `)`;
on success resume after the match, otherwise resume at the next character.
Fuel-structural (fuel bounds the input length). -/
def findMatchesAux : ℕ → List Char → List (List Char)
  | 0, _ => []
  | fuel + 1, l =>
    match l with
    | [] => []
    | c :: rest =>
      if c = '(' then
        match tryNum rest with
        | some (m, r) => m :: findMatchesAux fuel r
        | none => findMatchesAux fuel rest
      else findMatchesAux fuel rest

/-- All captured groups of the regex over the note string, in order. -/
def findMatches (l : List Char) : List (List Char) := findMatchesAux l.length l

/-- The strike pair the payoff evaluator extracts from a note string, when at
least two parenthesized numbers match. -/
def parsedStrikes (note : List Char) : Option (ℚ × ℚ) :=
  match findMatches note with
  | m1 :: m2 :: _ => some (parseFloatChars m1, parseFloatChars m2)
  | _ => none

/-- The call-branch note f-string of `replicate_binary_option`. -/
def noteCall (K1 K2 : ℚ) : List Char :=
  "Binary call approx by (C(".toList ++ pyFloatChars K1 ++ ") - C(".toList ++ pyFloatChars K2
    ++ ")) / (".toList ++ pyFloatChars K2 ++ " - ".toList ++ pyFloatChars K1 ++ ")".toList

/-- The put-branch note f-string of `replicate_binary_option`. -/
def notePut (K1 K2 : ℚ) : List Char :=
  "Binary put approx by (P(".toList ++ pyFloatChars K1 ++ ") - P(".toList ++ pyFloatChars K2
    ++ ")) / (".toList ++ pyFloatChars K2 ++ " - ".toList ++ pyFloatChars K1 ++ ")".toList

/-- One row of the vanilla-option instrument table
(`vanilla_option_data` DataFrame columns used by `replicate_binary_option`). -/
structure OptionRecord where
  option_type : String
  strike : ℚ
  expiration_timestamp : ℤ
  instrument_name : String
  last_price : ℚ
deriving DecidableEq

/-- One leg of the replication result (sub-dictionaries `option_1`/`option_2`). -/
structure ReplicationLeg where
  instrument : String
  weight : ℚ
  cost : ℚ
deriving DecidableEq

/-- The dictionary returned by `replicate_binary_option`. -/
structure ReplicationResult where
  option_1 : ReplicationLeg
  option_2 : ReplicationLeg
  note : List Char
  total_cost : ℚ
deriving DecidableEq

/-- Leftmost insertion index: `np.searchsorted(l, x, side='left')` on a sorted
array, i.e. the index of the first element `≥ x` (or the length). -/
def searchsortedLeft (l : List ℚ) (x : ℚ) : ℕ :=
  match l with
  | [] => 0
  | a :: t => if x ≤ a then 0 else searchsortedLeft t x + 1

/-- Rightmost insertion index: `np.searchsorted(l, x, side='right')` on a
sorted array, i.e. the index of the first element `> x` (or the length). -/
def searchsortedRight (l : List ℚ) (x : ℚ) : ℕ :=
  match l with
  | [] => 0
  | a :: t => if x < a then 0 else searchsortedRight t x + 1

/-- Model of `np.sort(df['strike'].unique())`: the distinct values, sorted
ascending. -/
def sortedUnique (l : List ℚ) : List ℚ := l.dedup.insertionSort (· ≤ ·)

/-- Call-branch strike selection of `replicate_binary_option`
(`replication.py` lines 36–43): both leftmost insertion indices must be in
bounds, and the strikes at those indices are returned. -/
def selectCallStrikes (strikes : List ℚ) (strike replication_precision : ℚ) : Option (ℚ × ℚ) :=
  let strike1_idx := searchsortedLeft strikes strike
  let strike2_idx := searchsortedLeft strikes (strike + replication_precision)
  if strike1_idx ≥ strikes.length ∨ strike2_idx ≥ strikes.length then none
  else some (strikes.getD strike1_idx 0, strikes.getD strike2_idx 0)

/-- Put-branch strike selection of `replicate_binary_option`
(`replication.py` lines 62–69): rightmost insertion indices minus one (as
Python ints, possibly negative); both must be non-negative. -/
def selectPutStrikes (strikes : List ℚ) (strike replication_precision : ℚ) : Option (ℚ × ℚ) :=
  let strike2_idx : ℤ := (searchsortedRight strikes strike : ℤ) - 1
  let strike1_idx : ℤ := (searchsortedRight strikes (strike - replication_precision) : ℤ) - 1
  if strike1_idx < 0 ∨ strike2_idx < 0 then none
  else some (strikes.getD strike1_idx.toNat 0, strikes.getD strike2_idx.toNat 0)

/-- The `(expiration, option class)` subset of the instrument table
(`df_calls` / `df_puts` in the source). -/
def df_class (data : List OptionRecord) (option_type : String) (expiry_timestamp : ℤ) : List OptionRecord :=
  (data.filter (fun r => r.expiration_timestamp == expiry_timestamp)).filter
    (fun r => r.option_type == option_type)

/-- Sorted distinct strikes of the `(expiration, option class)` subset of the
instrument table — the array the selector searches. -/
def availableStrikes (data : List OptionRecord) (option_type : String) (expiry_timestamp : ℤ) : List ℚ :=
  sortedUnique ((df_class data option_type expiry_timestamp).map (fun r => r.strike))

/-- Leg lookup and result construction shared by both branches of
`replicate_binary_option` (`replication.py` lines 45–56 and 71–82): the
first row of the class subset at each selected strike (`iloc[0]`), the
weights `±1/(K2−K1)`, and the assembled result dictionary.  The `iloc[0]`
on an empty selection would raise `IndexError`; it cannot happen when the
strikes come from the subset itself. -/
def replicationResultOf (df : List OptionRecord) (note : List Char) (K1 K2 : ℚ) :
    Except String ReplicationResult :=
  match df.find? (fun r => decide (r.strike = K1)), df.find? (fun r => decide (r.strike = K2)) with
  | some opt1, some opt2 =>
    let weight1 := 1 / (K2 - K1)
    let weight2 := -1 / (K2 - K1)
    .ok { option_1 := { instrument := opt1.instrument_name, weight := weight1, cost := opt1.last_price }
          option_2 := { instrument := opt2.instrument_name, weight := weight2, cost := opt2.last_price }
          note := note
          total_cost := weight1 * opt1.last_price + weight2 * opt2.last_price }
  | _, _ => .error "single positional indexer is out-of-bounds"

/-- Shallow embedding of `replicate_binary_option` (`replication.py` lines
8–85).  `ValueError` / `IndexError` raising is modelled by `Except.error`
carrying the Python error message. -/
def replicate_binary_option (vanilla_option_data : List OptionRecord) (option_type : String)
    (strike : ℚ) (expiry_timestamp : ℤ) (replication_precision : ℚ) :
    Except String ReplicationResult :=
  let df_expiry := vanilla_option_data.filter (fun r => r.expiration_timestamp == expiry_timestamp)
  if option_type = "call" then
    let df_calls := df_expiry.filter (fun r => r.option_type == "call")
    let strikes := sortedUnique (df_calls.map (fun r => r.strike))
    match selectCallStrikes strikes strike replication_precision with
    | none => .error "No suitable strikes found for replication."
    | some (K1, K2) => replicationResultOf df_calls (noteCall K1 K2) K1 K2
  else if option_type = "put" then
    let df_puts := df_expiry.filter (fun r => r.option_type == "put")
    let strikes := sortedUnique (df_puts.map (fun r => r.strike))
    match selectPutStrikes strikes strike replication_precision with
    | none => .error "No suitable strikes found for replication."
    | some (K1, K2) => replicationResultOf df_puts (notePut K1 K2) K1 K2
  else .error "Option type must be 'call' or 'put'."

/-- The three parallel sequences `plot_binary_replication_payoff` computes and
hands to the renderer (the `PayoffCurve` of the spec's data model). -/
structure PayoffCurve where
  prices : List ℚ
  ideal : List ℚ
  replicated : List ℚ
deriving DecidableEq

/-- Model of `np.linspace a b n`: `n` evenly spaced samples from `a` to `b`
inclusive. -/
def linspace (a b : ℚ) (n : ℕ) : List ℚ :=
  (List.range n).map (fun i : ℕ => a + (b - a) * (i : ℚ) / ((n : ℚ) - 1))

/-- The replication argument of `plot_binary_replication_payoff` viewed as a
Python dict: the note may be absent (read with `.get('note', '')`) and the
nested weight entries may be absent (read with `['option_1']['weight']`,
raising `KeyError` when missing). -/
structure ReplicationDict where
  note : Option (List Char)
  weight_1 : Option ℚ
  weight_2 : Option ℚ
deriving DecidableEq

/-- The dict actually produced by a successful `replicate_binary_option`
call, as consumed by the payoff evaluator. -/
def toDict (r : ReplicationResult) : ReplicationDict :=
  { note := some r.note, weight_1 := some r.option_1.weight, weight_2 := some r.option_2.weight }

/-- Shallow embedding of `plot_binary_replication_payoff` (`replication.py`
lines 88–152), up to the pure computation of the three payoff sequences;
the matplotlib rendering is the external sink and has no computational
content.  Order of failure matches the source: the regex fallback's weight
access happens before the option-class dispatch, which happens before the
weight reads for the replicated curve. -/
def plot_binary_replication_payoff (strike : ℚ) (option_type : String)
    (replication : ReplicationDict) (price_range : Option (List ℚ)) :
    Except String PayoffCurve :=
  let prices := price_range.getD (linspace (strike * (1/2)) (strike * (3/2)) 500)
  let note := replication.note.getD []
  let k12 : Except String (ℚ × ℚ) :=
    match findMatches note with
    | m1 :: m2 :: _ => .ok (parseFloatChars m1, parseFloatChars m2)
    | _ =>
      match replication.weight_1 with
      | none => .error "KeyError: 'weight'"
      | some w1 => .ok (strike, strike + 1 / w1)
  match k12 with
  | .error e => .error e
  | .ok (K1, K2) =>
    match (if option_type = "call" then
             Except.ok (prices.map (fun S => max (S - K1) 0), prices.map (fun S => max (S - K2) 0))
           else if option_type = "put" then
             Except.ok (prices.map (fun S => max (K1 - S) 0), prices.map (fun S => max (K2 - S) 0))
           else (Except.error "Option type must be 'call' or 'put'." : Except String (List ℚ × List ℚ))) with
    | .error e => .error e
    | .ok (payoff_opt1, payoff_opt2) =>
      match replication.weight_1, replication.weight_2 with
      | some w1, some w2 =>
        let replicated_payoff := List.zipWith (fun a b => w1 * a + w2 * b) payoff_opt1 payoff_opt2
        let ideal_payoff := prices.map (fun S =>
          if option_type = "call" then (if strike ≤ S then (1 : ℚ) else 0)
          else (if S ≤ strike then (1 : ℚ) else 0))
        .ok { prices := prices, ideal := ideal_payoff, replicated := replicated_payoff }
      | _, _ => .error "KeyError: 'weight'"

/-- Concrete two-row call table used by witnesses (expiry 0). -/
def callTable : List OptionRecord :=
  [{ option_type := "call", strike := 10000, expiration_timestamp := 0,
     instrument_name := "C10000", last_price := 30 },
   { option_type := "call", strike := 10500, expiration_timestamp := 0,
     instrument_name := "C10500", last_price := 40 }]

/-- Single-strike call table exhibiting the degenerate zero-width spread. -/
def degenerateTable : List OptionRecord :=
  [{ option_type := "call", strike := 10600, expiration_timestamp := 0,
     instrument_name := "C10600", last_price := 50 }]

/-- Concrete two-row put table used to exhibit the put-branch sign defect
(expiry 0). -/
def putTable : List OptionRecord :=
  [{ option_type := "put", strike := 9500, expiration_timestamp := 0,
     instrument_name := "P9500", last_price := 20 },
   { option_type := "put", strike := 10000, expiration_timestamp := 0,
     instrument_name := "P10000", last_price := 30 }]

/-! ### Properties of the insertion-index search -/

theorem searchsortedLeft_le_length (l : List ℚ) (x : ℚ) : searchsortedLeft l x ≤ l.length := by
  induction l with
  | nil => simp [searchsortedLeft]
  | cons a t ih =>
    simp only [searchsortedLeft, List.length_cons]
    split
    · omega
    · omega

theorem searchsortedRight_le_length (l : List ℚ) (x : ℚ) : searchsortedRight l x ≤ l.length := by
  induction l with
  | nil => simp [searchsortedRight]
  | cons a t ih =>
    simp only [searchsortedRight, List.length_cons]
    split
    · omega
    · omega

theorem searchsortedLeft_all_lt (l : List ℚ) (x : ℚ) (h : ∀ k ∈ l, k < x) :
    searchsortedLeft l x = l.length := by
  induction l with
  | nil => simp [searchsortedLeft]
  | cons a t ih =>
    have ha : a < x := h a (List.mem_cons_self a t)
    simp only [searchsortedLeft, List.length_cons]
    rw [if_neg (by exact not_le.mpr ha)]
    rw [ih (fun k hk => h k (List.mem_cons_of_mem a hk))]

theorem searchsortedRight_all_gt (l : List ℚ) (x : ℚ) (h : ∀ k ∈ l, x < k) :
    searchsortedRight l x = 0 := by
  cases l with
  | nil => simp [searchsortedRight]
  | cons a t =>
    have ha : x < a := h a (List.mem_cons_self a t)
    simp [searchsortedRight, ha]

theorem searchsortedRight_eq_zero_all_gt (l : List ℚ) (x : ℚ)
    (hl : l.Sorted (· ≤ ·)) (h : searchsortedRight l x = 0) : ∀ k ∈ l, x < k := by
  cases l with
  | nil => simp
  | cons a t =>
    simp only [searchsortedRight] at h
    by_cases hxa : x < a
    · intro k hk
      rcases List.mem_cons.mp hk with rfl | hk
      · exact hxa
      · exact lt_of_lt_of_le hxa ((List.sorted_cons.mp hl).1 k hk)
    · rw [if_neg hxa] at h
      omega

/-- Characterisation of the call-side index: when in bounds, the element
found is the least element `≥ x` of a sorted list. -/
theorem searchsortedLeft_spec (l : List ℚ) (x : ℚ) (hl : l.Sorted (· ≤ ·))
    (h : searchsortedLeft l x < l.length) :
    l.getD (searchsortedLeft l x) 0 ∈ l ∧ x ≤ l.getD (searchsortedLeft l x) 0 ∧
      ∀ k ∈ l, x ≤ k → l.getD (searchsortedLeft l x) 0 ≤ k := by
  induction l with
  | nil => simp at h
  | cons a t ih =>
    rcases List.sorted_cons.mp hl with ⟨hat, ht⟩
    by_cases hxa : x ≤ a
    · simp only [searchsortedLeft, if_pos hxa, List.getD_cons_zero]
      refine ⟨List.mem_cons_self a t, hxa, ?_⟩
      intro k hk _
      rcases List.mem_cons.mp hk with rfl | hk
      · exact le_refl k
      · exact hat k hk
    · simp only [searchsortedLeft, if_neg hxa, List.getD_cons_succ, List.length_cons] at h ⊢
      have h' : searchsortedLeft t x < t.length := by omega
      rcases ih ht h' with ⟨hmem, hge, hmin⟩
      refine ⟨List.mem_cons_of_mem a hmem, hge, ?_⟩
      intro k hk hxk
      rcases List.mem_cons.mp hk with rfl | hk
      · exact absurd hxk hxa
      · exact hmin k hk hxk

/-- Characterisation of the put-side index: when positive, the element at
the index minus one is the greatest element `≤ x` of a sorted list. -/
theorem searchsortedRight_spec (l : List ℚ) (x : ℚ) (hl : l.Sorted (· ≤ ·))
    (h : 0 < searchsortedRight l x) :
    searchsortedRight l x - 1 < l.length ∧
      l.getD (searchsortedRight l x - 1) 0 ∈ l ∧
      l.getD (searchsortedRight l x - 1) 0 ≤ x ∧
      ∀ k ∈ l, k ≤ x → k ≤ l.getD (searchsortedRight l x - 1) 0 := by
  induction l with
  | nil => simp [searchsortedRight] at h
  | cons a t ih =>
    rcases List.sorted_cons.mp hl with ⟨hat, ht⟩
    by_cases hxa : x < a
    · simp [searchsortedRight, hxa] at h
    · simp only [searchsortedRight, if_neg hxa] at h ⊢
      by_cases hz : searchsortedRight t x = 0
      · have hgt := searchsortedRight_eq_zero_all_gt t x ht hz
        simp only [hz, List.length_cons, List.getD_cons_zero]
        refine ⟨by omega, List.mem_cons_self a t, not_lt.mp hxa, ?_⟩
        intro k hk hkx
        rcases List.mem_cons.mp hk with rfl | hk
        · exact le_refl k
        · exact absurd hkx (not_le.mpr (hgt k hk))
      · have hpos : 0 < searchsortedRight t x := by omega
        rcases ih ht hpos with ⟨hlen, hmem, hle, hmax⟩
        have hidx : searchsortedRight t x + 1 - 1 = (searchsortedRight t x - 1) + 1 := by omega
        rw [hidx]
        simp only [List.getD_cons_succ, List.length_cons]
        refine ⟨by omega, List.mem_cons_of_mem a hmem, hle, ?_⟩
        intro k hk hkx
        rcases List.mem_cons.mp hk with rfl | hk
        · exact hat _ hmem
        · exact hmax k hk hkx

/-! ### Properties of `sortedUnique` -/

theorem sortedUnique_sorted_le (l : List ℚ) : (sortedUnique l).Sorted (· ≤ ·) :=
  List.sorted_insertionSort (· ≤ ·) l.dedup

theorem sortedUnique_nodup (l : List ℚ) : (sortedUnique l).Nodup :=
  ((List.perm_insertionSort (· ≤ ·) l.dedup).nodup_iff).mpr (List.nodup_dedup l)

theorem sortedUnique_sorted_lt (l : List ℚ) : (sortedUnique l).Sorted (· < ·) :=
  ((sortedUnique_sorted_le l).and (sortedUnique_nodup l)).imp
    (fun h => lt_of_le_of_ne h.1 h.2)

theorem mem_sortedUnique (l : List ℚ) (a : ℚ) : a ∈ sortedUnique l ↔ a ∈ l := by
  rw [sortedUnique, (List.perm_insertionSort (· ≤ ·) l.dedup).mem_iff, List.mem_dedup]

/-! ### Selector elimination lemmas -/

theorem selectCallStrikes_elim {l : List ℚ} {s p K1 K2 : ℚ}
    (h : selectCallStrikes l s p = some (K1, K2)) :
    searchsortedLeft l s < l.length ∧ searchsortedLeft l (s + p) < l.length ∧
      K1 = l.getD (searchsortedLeft l s) 0 ∧ K2 = l.getD (searchsortedLeft l (s + p)) 0 := by
  simp only [selectCallStrikes] at h
  split at h
  · exact absurd h (by simp)
  · rename_i hcond
    push_neg at hcond
    simp only [Option.some.injEq, Prod.mk.injEq] at h
    exact ⟨by omega, by omega, h.1.symm, h.2.symm⟩

theorem selectPutStrikes_elim {l : List ℚ} {s p K1 K2 : ℚ}
    (h : selectPutStrikes l s p = some (K1, K2)) :
    0 < searchsortedRight l s ∧ 0 < searchsortedRight l (s - p) ∧
      K1 = l.getD (searchsortedRight l (s - p) - 1) 0 ∧
      K2 = l.getD (searchsortedRight l s - 1) 0 := by
  simp only [selectPutStrikes] at h
  split at h
  · exact absurd h (by simp)
  · rename_i hcond
    push_neg at hcond
    simp only [Option.some.injEq, Prod.mk.injEq] at h
    have h2 : (0 : ℤ) ≤ (searchsortedRight l s : ℤ) - 1 := by omega
    have h1 : (0 : ℤ) ≤ (searchsortedRight l (s - p) : ℤ) - 1 := by omega
    have e2 : ((searchsortedRight l s : ℤ) - 1).toNat = searchsortedRight l s - 1 := by omega
    have e1 : ((searchsortedRight l (s - p) : ℤ) - 1).toNat = searchsortedRight l (s - p) - 1 := by
      omega
    rw [e1, e2] at h
    exact ⟨by omega, by omega, h.1.symm, h.2.symm⟩

/-- C2.  For the call case, on the sorted distinct strikes, a successful
selection returns as `K1` the smallest available strike `≥` the target and
as `K2` the smallest available strike `≥` target + precision, with
`K1 ≤ K2`. -/
theorem call_selector_spec (m : List ℚ) (s p K1 K2 : ℚ) (hp : 0 ≤ p)
    (h : selectCallStrikes (sortedUnique m) s p = some (K1, K2)) :
    (K1 ∈ sortedUnique m ∧ s ≤ K1 ∧ ∀ k ∈ sortedUnique m, s ≤ k → K1 ≤ k) ∧
      (K2 ∈ sortedUnique m ∧ s + p ≤ K2 ∧ ∀ k ∈ sortedUnique m, s + p ≤ k → K2 ≤ k) ∧
      K1 ≤ K2 := by
  rcases selectCallStrikes_elim h with ⟨h1, h2, e1, e2⟩
  have hl := sortedUnique_sorted_le m
  rcases searchsortedLeft_spec (sortedUnique m) s hl h1 with ⟨m1, g1, min1⟩
  rcases searchsortedLeft_spec (sortedUnique m) (s + p) hl h2 with ⟨m2, g2, min2⟩
  rw [← e1] at m1 g1 min1
  rw [← e2] at m2 g2 min2
  refine ⟨⟨m1, g1, min1⟩, ⟨m2, g2, min2⟩, ?_⟩
  exact min1 K2 m2 (le_trans (by linarith) g2)

/-- C3.  For the put case, on the sorted distinct strikes, a successful
selection returns as `K2` the largest available strike `≤` the target and
as `K1` the largest available strike `≤` target − precision, with
`K1 ≤ K2`. -/
theorem put_selector_spec (m : List ℚ) (s p K1 K2 : ℚ) (hp : 0 ≤ p)
    (h : selectPutStrikes (sortedUnique m) s p = some (K1, K2)) :
    (K2 ∈ sortedUnique m ∧ K2 ≤ s ∧ ∀ k ∈ sortedUnique m, k ≤ s → k ≤ K2) ∧
      (K1 ∈ sortedUnique m ∧ K1 ≤ s - p ∧ ∀ k ∈ sortedUnique m, k ≤ s - p → k ≤ K1) ∧
      K1 ≤ K2 := by
  rcases selectPutStrikes_elim h with ⟨h2, h1, e1, e2⟩
  have hl := sortedUnique_sorted_le m
  rcases searchsortedRight_spec (sortedUnique m) s hl h2 with ⟨_, m2, g2, max2⟩
  rcases searchsortedRight_spec (sortedUnique m) (s - p) hl h1 with ⟨_, m1, g1, max1⟩
  rw [← e2] at m2 g2 max2
  rw [← e1] at m1 g1 max1
  refine ⟨⟨m2, g2, max2⟩, ⟨m1, g1, max1⟩, ?_⟩
  exact max2 K1 m1 (le_trans g1 (by linarith))

/-- Witness for C2: the spec's §8 scenario, strikes 9000..11000, target
10000, precision 500 select `K1 = 10000`, `K2 = 10500`. -/
theorem call_selector_spec_witness :
    ((10000 : ℚ) ∈ sortedUnique [9000, 9500, 10000, 10500, 11000] ∧ (10000 : ℚ) ≤ 10000 ∧
        ∀ k ∈ sortedUnique [9000, 9500, 10000, 10500, 11000], 10000 ≤ k → (10000 : ℚ) ≤ k) ∧
      ((10500 : ℚ) ∈ sortedUnique [9000, 9500, 10000, 10500, 11000] ∧ (10000 : ℚ) + 500 ≤ 10500 ∧
        ∀ k ∈ sortedUnique [9000, 9500, 10000, 10500, 11000], 10000 + 500 ≤ k → (10500 : ℚ) ≤ k) ∧
      (10000 : ℚ) ≤ 10500 :=
  call_selector_spec [9000, 9500, 10000, 10500, 11000] 10000 500 10000 10500 (by norm_num)
    (by norm_num [sortedUnique, List.dedup, List.pwFilter, List.insertionSort,
          List.orderedInsert, selectCallStrikes, searchsortedLeft])

/-- Witness for C3: the spec's §8 put scenario, strikes 9000..11000, target
10000, precision 500 select `K2 = 10000`, `K1 = 9500`. -/
theorem put_selector_spec_witness :
    ((10000 : ℚ) ∈ sortedUnique [9000, 9500, 10000, 10500, 11000] ∧ (10000 : ℚ) ≤ 10000 ∧
        ∀ k ∈ sortedUnique [9000, 9500, 10000, 10500, 11000], k ≤ 10000 → k ≤ (10000 : ℚ)) ∧
      ((9500 : ℚ) ∈ sortedUnique [9000, 9500, 10000, 10500, 11000] ∧ (9500 : ℚ) ≤ 10000 - 500 ∧
        ∀ k ∈ sortedUnique [9000, 9500, 10000, 10500, 11000], k ≤ 10000 - 500 → k ≤ (9500 : ℚ)) ∧
      (9500 : ℚ) ≤ 10000 :=
  put_selector_spec [9000, 9500, 10000, 10500, 11000] 10000 500 9500 10000 (by norm_num)
    (by norm_num [sortedUnique, List.dedup, List.pwFilter, List.insertionSort,
          List.orderedInsert, selectPutStrikes, searchsortedRight]
        decide)

theorem selectCallStrikes_none_of_high {l : List ℚ} {s p : ℚ}
    (h : l.length ≤ searchsortedLeft l (s + p)) : selectCallStrikes l s p = none := by
  simp only [selectCallStrikes]
  rw [if_pos (Or.inr h)]

theorem selectPutStrikes_none_of_low {l : List ℚ} {s p : ℚ}
    (h : searchsortedRight l (s - p) = 0) : selectPutStrikes l s p = none := by
  simp only [selectPutStrikes]
  rw [if_pos (Or.inl (by omega))]

/-- C8.  If no available strike is `≥ target + precision` (call case), or
none is `≤ target − precision` (put case), within the `(expiration, class)`
subset, `replicate_binary_option` fails with the no-suitable-strikes
`ValueError` and returns no result. -/
theorem no_suitable_strikes_error (data : List OptionRecord) (s : ℚ) (e : ℤ) (p : ℚ) :
    ((∀ k ∈ availableStrikes data "call" e, k < s + p) →
      replicate_binary_option data "call" s e p =
        .error "No suitable strikes found for replication.") ∧
    ((∀ k ∈ availableStrikes data "put" e, s - p < k) →
      replicate_binary_option data "put" s e p =
        .error "No suitable strikes found for replication.") := by
  constructor
  · intro h
    simp only [availableStrikes] at h
    have hnone : selectCallStrikes
        (sortedUnique (((data.filter (fun r => r.expiration_timestamp == e)).filter
          (fun r => r.option_type == "call")).map (fun r => r.strike))) s p = none :=
      selectCallStrikes_none_of_high (le_of_eq (searchsortedLeft_all_lt _ _ h).symm)
    simp only [replicate_binary_option, if_pos rfl]
    rw [hnone]
    simp
  · intro h
    simp only [availableStrikes] at h
    have hnone : selectPutStrikes
        (sortedUnique (((data.filter (fun r => r.expiration_timestamp == e)).filter
          (fun r => r.option_type == "put")).map (fun r => r.strike))) s p = none :=
      selectPutStrikes_none_of_low (searchsortedRight_all_gt _ _ h)
    have hne : ("put" : String) ≠ "call" := by decide
    simp only [replicate_binary_option, if_neg hne, if_pos rfl]
    rw [hnone]
    simp

/-- Witness for C8: with an empty instrument table both conditions hold
vacuously and both calls fail with the no-suitable-strikes error. -/
theorem no_suitable_strikes_error_witness :
    replicate_binary_option [] "call" 10000 0 500 =
        .error "No suitable strikes found for replication." ∧
      replicate_binary_option [] "put" 10000 0 500 =
        .error "No suitable strikes found for replication." :=
  ⟨(no_suitable_strikes_error [] 10000 0 500).1
      (by simp [availableStrikes, sortedUnique]),
    (no_suitable_strikes_error [] 10000 0 500).2
      (by simp [availableStrikes, sortedUnique])⟩

/-- C9.  Any option-class argument other than `"call"`/`"put"` makes the
selector/calculator and the payoff evaluator fail with the invalid-class
`ValueError` and produce no result.  (For the evaluator the replication
dict is assumed to carry its `option_1.weight` entry, as every dict built
by the calculator does; a dict missing both a parsable note and the weight
would already have failed earlier, in the C10 path.) -/
theorem invalid_option_class_error (data : List OptionRecord) (option_type : String)
    (s : ℚ) (e : ℤ) (p : ℚ) (strike : ℚ) (repl : ReplicationDict) (pr : Option (List ℚ))
    (h1 : option_type ≠ "call") (h2 : option_type ≠ "put") (h3 : repl.weight_1.isSome) :
    replicate_binary_option data option_type s e p =
        .error "Option type must be 'call' or 'put'." ∧
      plot_binary_replication_payoff strike option_type repl pr =
        .error "Option type must be 'call' or 'put'." := by
  constructor
  · simp only [replicate_binary_option, if_neg h1, if_neg h2]
  · obtain ⟨w1, hw1⟩ := Option.isSome_iff_exists.mp h3
    rcases hfm : findMatches (repl.note.getD []) with _ | ⟨m1, _ | ⟨m2, rest⟩⟩
    · simp only [plot_binary_replication_payoff, hfm, hw1, if_neg h1, if_neg h2]
    · simp only [plot_binary_replication_payoff, hfm, hw1, if_neg h1, if_neg h2]
    · simp only [plot_binary_replication_payoff, hfm, if_neg h1, if_neg h2]

/-- Witness for C9: the class `"straddle"` is rejected by both functions. -/
theorem invalid_option_class_error_witness :
    replicate_binary_option [] "straddle" 10000 0 500 =
        .error "Option type must be 'call' or 'put'." ∧
      plot_binary_replication_payoff 10000 "straddle" ⟨none, some 1, some 1⟩ (some [10000]) =
        .error "Option type must be 'call' or 'put'." :=
  invalid_option_class_error [] "straddle" 10000 0 500 10000 ⟨none, some 1, some 1⟩
    (some [10000]) (by decide) (by decide) (by decide)

/-- C10.  A replication dict the payoff evaluator cannot interpret — its
note yields fewer than two parenthesized numbers and the `option_1.weight`
entry is missing — makes the evaluator fail (Python raises `KeyError` in
the weight-based fallback) instead of producing a payoff curve. -/
theorem malformed_replication_error (strike : ℚ) (option_type : String)
    (repl : ReplicationDict) (pr : Option (List ℚ))
    (h1 : (findMatches (repl.note.getD [])).length < 2) (h2 : repl.weight_1 = none) :
    plot_binary_replication_payoff strike option_type repl pr = .error "KeyError: 'weight'" := by
  rcases hfm : findMatches (repl.note.getD []) with _ | ⟨m1, _ | ⟨m2, rest⟩⟩
  · simp only [plot_binary_replication_payoff, hfm, h2]
  · simp only [plot_binary_replication_payoff, hfm, h2]
  · rw [hfm] at h1
    simp only [List.length_cons] at h1
    omega

/-- Witness for C10: a dict with no note and no weight entries fails. -/
theorem malformed_replication_error_witness :
    plot_binary_replication_payoff 10000 "call" ⟨none, none, none⟩ (some [10000]) =
      .error "KeyError: 'weight'" :=
  malformed_replication_error 10000 "call" ⟨none, none, none⟩ (some [10000]) (by decide) rfl

/-- Definitional shape of the call branch of `replicate_binary_option`. -/
theorem replicate_call_def (data : List OptionRecord) (s : ℚ) (e : ℤ) (p : ℚ) :
    replicate_binary_option data "call" s e p =
      match selectCallStrikes (availableStrikes data "call" e) s p with
      | none => .error "No suitable strikes found for replication."
      | some (K1, K2) => replicationResultOf (df_class data "call" e) (noteCall K1 K2) K1 K2 := rfl

/-- Definitional shape of the put branch of `replicate_binary_option`. -/
theorem replicate_put_def (data : List OptionRecord) (s : ℚ) (e : ℤ) (p : ℚ) :
    replicate_binary_option data "put" s e p =
      match selectPutStrikes (availableStrikes data "put" e) s p with
      | none => .error "No suitable strikes found for replication."
      | some (K1, K2) => replicationResultOf (df_class data "put" e) (notePut K1 K2) K1 K2 := rfl

/-- Definitional shape of the invalid-class branch of
`replicate_binary_option`. -/
theorem replicate_invalid_def (data : List OptionRecord) (option_type : String)
    (s : ℚ) (e : ℤ) (p : ℚ) (h1 : option_type ≠ "call") (h2 : option_type ≠ "put") :
    replicate_binary_option data option_type s e p =
      .error "Option type must be 'call' or 'put'." := by
  simp only [replicate_binary_option, if_neg h1, if_neg h2]

/-- Inversion of a successful `replicationResultOf`. -/
theorem replicationResultOf_ok_elim {df : List OptionRecord} {note : List Char} {K1 K2 : ℚ}
    {r : ReplicationResult} (h : replicationResultOf df note K1 K2 = .ok r) :
    ∃ opt1 opt2,
      df.find? (fun x => decide (x.strike = K1)) = some opt1 ∧
      df.find? (fun x => decide (x.strike = K2)) = some opt2 ∧
      r = { option_1 := { instrument := opt1.instrument_name, weight := 1 / (K2 - K1), cost := opt1.last_price }
            option_2 := { instrument := opt2.instrument_name, weight := -1 / (K2 - K1), cost := opt2.last_price }
            note := note
            total_cost := 1 / (K2 - K1) * opt1.last_price + -1 / (K2 - K1) * opt2.last_price } := by
  unfold replicationResultOf at h
  rcases hf1 : df.find? (fun x => decide (x.strike = K1)) with _ | opt1
  · rw [hf1] at h
    exact Except.noConfusion h
  rcases hf2 : df.find? (fun x => decide (x.strike = K2)) with _ | opt2
  · rw [hf1, hf2] at h
    exact Except.noConfusion h
  rw [hf1, hf2] at h
  exact ⟨opt1, opt2, hf1, hf2, (Except.ok.inj h).symm⟩

/-- Inversion of a successful call-branch replication. -/
theorem replicate_call_ok_elim {data : List OptionRecord} {s : ℚ} {e : ℤ} {p : ℚ}
    {r : ReplicationResult} (h : replicate_binary_option data "call" s e p = .ok r) :
    ∃ K1 K2 opt1 opt2,
      selectCallStrikes (availableStrikes data "call" e) s p = some (K1, K2) ∧
      (df_class data "call" e).find? (fun x => decide (x.strike = K1)) = some opt1 ∧
      (df_class data "call" e).find? (fun x => decide (x.strike = K2)) = some opt2 ∧
      r = { option_1 := { instrument := opt1.instrument_name, weight := 1 / (K2 - K1), cost := opt1.last_price }
            option_2 := { instrument := opt2.instrument_name, weight := -1 / (K2 - K1), cost := opt2.last_price }
            note := noteCall K1 K2
            total_cost := 1 / (K2 - K1) * opt1.last_price + -1 / (K2 - K1) * opt2.last_price } := by
  rw [replicate_call_def] at h
  rcases hsel : selectCallStrikes (availableStrikes data "call" e) s p with _ | ⟨K1, K2⟩
  · rw [hsel] at h
    exact Except.noConfusion h
  · rw [hsel] at h
    have h' : replicationResultOf (df_class data "call" e) (noteCall K1 K2) K1 K2 = .ok r := h
    rcases replicationResultOf_ok_elim h' with ⟨opt1, opt2, hf1, hf2, hr⟩
    exact ⟨K1, K2, opt1, opt2, rfl, hf1, hf2, hr⟩

/-- Inversion of a successful put-branch replication. -/
theorem replicate_put_ok_elim {data : List OptionRecord} {s : ℚ} {e : ℤ} {p : ℚ}
    {r : ReplicationResult} (h : replicate_binary_option data "put" s e p = .ok r) :
    ∃ K1 K2 opt1 opt2,
      selectPutStrikes (availableStrikes data "put" e) s p = some (K1, K2) ∧
      (df_class data "put" e).find? (fun x => decide (x.strike = K1)) = some opt1 ∧
      (df_class data "put" e).find? (fun x => decide (x.strike = K2)) = some opt2 ∧
      r = { option_1 := { instrument := opt1.instrument_name, weight := 1 / (K2 - K1), cost := opt1.last_price }
            option_2 := { instrument := opt2.instrument_name, weight := -1 / (K2 - K1), cost := opt2.last_price }
            note := notePut K1 K2
            total_cost := 1 / (K2 - K1) * opt1.last_price + -1 / (K2 - K1) * opt2.last_price } := by
  rw [replicate_put_def] at h
  rcases hsel : selectPutStrikes (availableStrikes data "put" e) s p with _ | ⟨K1, K2⟩
  · rw [hsel] at h
    exact Except.noConfusion h
  · rw [hsel] at h
    have h' : replicationResultOf (df_class data "put" e) (notePut K1 K2) K1 K2 = .ok r := h
    rcases replicationResultOf_ok_elim h' with ⟨opt1, opt2, hf1, hf2, hr⟩
    exact ⟨K1, K2, opt1, opt2, rfl, hf1, hf2, hr⟩

/-- C5.  Every successful replication carries equal-and-opposite weights
`1/(K2−K1)` and `−1/(K2−K1)` for the selected strike pair, and its
`total_cost` is exactly the dot product of the weights with the two leg
prices. -/
theorem replication_weights_spec (data : List OptionRecord) (option_type : String)
    (s : ℚ) (e : ℤ) (p : ℚ) (r : ReplicationResult)
    (h : replicate_binary_option data option_type s e p = .ok r) :
    r.option_1.weight + r.option_2.weight = 0 ∧
      r.total_cost = r.option_1.weight * r.option_1.cost + r.option_2.weight * r.option_2.cost ∧
      ∃ K1 K2 : ℚ, r.option_1.weight = 1 / (K2 - K1) ∧ r.option_2.weight = -1 / (K2 - K1) ∧
        (selectCallStrikes (availableStrikes data "call" e) s p = some (K1, K2) ∨
          selectPutStrikes (availableStrikes data "put" e) s p = some (K1, K2)) := by
  by_cases hc : option_type = "call"
  · subst hc
    rcases replicate_call_ok_elim h with ⟨K1, K2, opt1, opt2, hsel, hf1, hf2, hr⟩
    subst hr
    refine ⟨?_, rfl, K1, K2, rfl, rfl, Or.inl hsel⟩
    show 1 / (K2 - K1) + -1 / (K2 - K1) = 0
    ring
  · by_cases hpt : option_type = "put"
    · subst hpt
      rcases replicate_put_ok_elim h with ⟨K1, K2, opt1, opt2, hsel, hf1, hf2, hr⟩
      subst hr
      refine ⟨?_, rfl, K1, K2, rfl, rfl, Or.inr hsel⟩
      show 1 / (K2 - K1) + -1 / (K2 - K1) = 0
      ring
    · rw [replicate_invalid_def data option_type s e p hc hpt] at h
      exact absurd h (by simp)

theorem callTable_select :
    selectCallStrikes (availableStrikes callTable "call" 0) 10000 500 = some (10000, 10500) := by
  norm_num [availableStrikes, df_class, callTable, sortedUnique, List.dedup, List.pwFilter,
    List.insertionSort, List.orderedInsert, selectCallStrikes, searchsortedLeft]

/-- Witness for C5: the concrete two-leg call replication at strikes
10000/10500 with prices 30/40. -/
theorem replication_weights_spec_witness :
    (1 : ℚ) / (10500 - 10000) + -1 / (10500 - 10000) = 0 ∧
      ((1 : ℚ) / (10500 - 10000) * 30 + -1 / (10500 - 10000) * 40 =
        1 / (10500 - 10000) * 30 + -1 / (10500 - 10000) * 40) ∧
      ∃ K1 K2 : ℚ, (1 : ℚ) / (10500 - 10000) = 1 / (K2 - K1) ∧
        (-1 : ℚ) / (10500 - 10000) = -1 / (K2 - K1) ∧
        (selectCallStrikes (availableStrikes callTable "call" 0) 10000 500 = some (K1, K2) ∨
          selectPutStrikes (availableStrikes callTable "put" 0) 10000 500 = some (K1, K2)) :=
  replication_weights_spec callTable "call" 10000 0 500
    { option_1 := { instrument := "C10000", weight := 1 / (10500 - 10000), cost := 30 }
      option_2 := { instrument := "C10500", weight := -1 / (10500 - 10000), cost := 40 }
      note := noteCall 10000 10500
      total_cost := 1 / (10500 - 10000) * 30 + -1 / (10500 - 10000) * 40 }
    (by rw [replicate_call_def, callTable_select]
        rfl)

/-- C4 refutation evidence: with only the strike 10600 available, target
10000 and precision 500 > 0, both insertion indices are 0 and in bounds, so
selection succeeds with `K1 = K2 = 10600` and the calculator builds the
result with weights `±1/(10600 − 10600)` — a division by zero (numpy floats
turn it into `±inf`; exact arithmetic makes `1/0 = 0` here).  The claim
says `K2 > K1` whenever selection succeeds with positive precision. -/
theorem degenerate_spread_selection :
    selectCallStrikes (sortedUnique [10600]) 10000 500 = some (10600, 10600) ∧
      replicate_binary_option degenerateTable "call" 10000 0 500 =
        .ok { option_1 := { instrument := "C10600", weight := 1 / (10600 - 10600), cost := 50 }
              option_2 := { instrument := "C10600", weight := -1 / (10600 - 10600), cost := 50 }
              note := noteCall 10600 10600
              total_cost := 1 / (10600 - 10600) * 50 + -1 / (10600 - 10600) * 50 } := by
  constructor
  · norm_num [sortedUnique, List.dedup, List.pwFilter, List.insertionSort, List.orderedInsert,
      selectCallStrikes, searchsortedLeft]
  · have hsel : selectCallStrikes (availableStrikes degenerateTable "call" 0) 10000 500 =
        some (10600, 10600) := by
      norm_num [availableStrikes, df_class, degenerateTable, sortedUnique, List.dedup,
        List.pwFilter, List.insertionSort, List.orderedInsert, selectCallStrikes,
        searchsortedLeft]
    rw [replicate_call_def, hsel]
    rfl

/-! ### Scanner lemmas: behaviour of the regex model on the note template -/

theorem dropWhile_length_le (p : Char → Bool) (l : List Char) :
    (l.dropWhile p).length ≤ l.length := by
  have : (l.takeWhile p).length + (l.dropWhile p).length = l.length := by
    rw [← List.length_append, List.takeWhile_append_dropWhile]
  omega

theorem takeWhile_append_of (p : Char → Bool) (l₁ : List Char) (x : Char) (l₂ : List Char)
    (h : ∀ a ∈ l₁, p a = true) (hx : p x = false) :
    (l₁ ++ x :: l₂).takeWhile p = l₁ := by
  induction l₁ with
  | nil => simp [List.takeWhile_cons, hx]
  | cons a t ih =>
    have ha : p a = true := h a (List.mem_cons_self a t)
    simp only [List.cons_append, List.takeWhile_cons, ha, if_true]
    rw [ih (fun b hb => h b (List.mem_cons_of_mem a hb))]

theorem dropWhile_append_of (p : Char → Bool) (l₁ : List Char) (x : Char) (l₂ : List Char)
    (h : ∀ a ∈ l₁, p a = true) (hx : p x = false) :
    (l₁ ++ x :: l₂).dropWhile p = x :: l₂ := by
  induction l₁ with
  | nil => simp [List.dropWhile_cons, hx]
  | cons a t ih =>
    have ha : p a = true := h a (List.mem_cons_self a t)
    simp only [List.cons_append, List.dropWhile_cons, ha, if_true]
    exact ih (fun b hb => h b (List.mem_cons_of_mem a hb))

theorem tryNum_length {l m r : List Char} (h : tryNum l = some (m, r)) : r.length < l.length := by
  have h1 := dropWhile_length_le (fun c => c.isDigit) l
  by_cases hne : l.takeWhile (fun c => c.isDigit) = []
  · unfold tryNum at h
    rw [if_pos hne] at h
    exact absurd h (by simp)
  · unfold tryNum at h
    rw [if_neg hne] at h
    split at h
    · exact absurd h (by simp)
    · rename_i c rest hd
      rw [hd] at h1
      simp only [List.length_cons] at h1
      split at h
      · simp only [Option.some.injEq, Prod.mk.injEq] at h
        obtain ⟨hm, hr⟩ := h
        subst hr
        omega
      · split at h
        · have h2 := dropWhile_length_le (fun c => c.isDigit) rest
          split at h
          · exact absurd h (by simp)
          · rename_i c2 r2 hd2
            rw [hd2] at h2
            simp only [List.length_cons] at h2
            split at h
            · simp only [Option.some.injEq, Prod.mk.injEq] at h
              obtain ⟨hm, hr⟩ := h
              subst hr
              omega
            · exact absurd h (by simp)
        · exact absurd h (by simp)

theorem tryNum_nondigit (c : Char) (l : List Char) (hc : c.isDigit = false) :
    tryNum (c :: l) = none := by
  unfold tryNum
  rw [if_pos]
  simp [List.takeWhile_cons, hc]

theorem tryNum_num (d : List Char) (l : List Char) (hne : d ≠ [])
    (hd : ∀ a ∈ d, a.isDigit = true) :
    tryNum (d ++ '.' :: '0' :: ')' :: l) = some (d ++ ['.', '0'], l) := by
  have hdot : ('.' : Char).isDigit = false := rfl
  have h0 : ('0' : Char).isDigit = true := rfl
  have hrp : (')' : Char).isDigit = false := rfl
  unfold tryNum
  rw [takeWhile_append_of _ _ _ _ hd hdot, dropWhile_append_of _ _ _ _ hd hdot]
  rw [if_neg hne]
  simp [List.takeWhile_cons, List.dropWhile_cons, h0, hrp]

theorem tryNum_num_bad (d : List Char) (c : Char) (l : List Char) (hne : d ≠ [])
    (hd : ∀ a ∈ d, a.isDigit = true) (hc1 : c.isDigit = false) (hc2 : ¬(c = ')')) :
    tryNum (d ++ '.' :: '0' :: c :: l) = none := by
  have hdot : ('.' : Char).isDigit = false := rfl
  have h0 : ('0' : Char).isDigit = true := rfl
  unfold tryNum
  rw [takeWhile_append_of _ _ _ _ hd hdot, dropWhile_append_of _ _ _ _ hd hdot]
  rw [if_neg hne]
  simp [List.takeWhile_cons, List.dropWhile_cons, h0, hc1, hc2]

theorem findMatchesAux_congr : ∀ (f₁ : ℕ) (l : List Char) (f₂ : ℕ),
    l.length ≤ f₁ → l.length ≤ f₂ → findMatchesAux f₁ l = findMatchesAux f₂ l := by
  intro f₁
  induction f₁ with
  | zero =>
    intro l f₂ h1 h2
    have : l = [] := List.eq_nil_of_length_eq_zero (by omega)
    subst this
    cases f₂ <;> rfl
  | succ f ih =>
    intro l f₂ h1 h2
    cases l with
    | nil => cases f₂ <;> rfl
    | cons c rest =>
      simp only [List.length_cons] at h1 h2
      cases f₂ with
      | zero => omega
      | succ g =>
        simp only [findMatchesAux]
        by_cases hc : c = '('
        · rw [if_pos hc, if_pos hc]
          rcases ht : tryNum rest with _ | ⟨m, r⟩
          · exact ih rest g (by omega) (by omega)
          · have hlen := tryNum_length ht
            exact congrArg (m :: ·) (ih r g (by omega) (by omega))
        · rw [if_neg hc, if_neg hc]
          exact ih rest g (by omega) (by omega)

theorem findMatches_cons_ne (c : Char) (l : List Char) (h : ¬(c = '(')) :
    findMatches (c :: l) = findMatches l := by
  simp only [findMatches, List.length_cons, findMatchesAux]
  rw [if_neg h]

theorem findMatches_paren_some (l m r : List Char) (h : tryNum l = some (m, r)) :
    findMatches ('(' :: l) = m :: findMatches r := by
  simp only [findMatches, List.length_cons, findMatchesAux]
  rw [if_pos trivial, h]
  have hlen := tryNum_length h
  exact congrArg (m :: ·) (findMatchesAux_congr l.length r r.length (by omega) (by omega))

theorem findMatches_paren_none (l : List Char) (h : tryNum l = none) :
    findMatches ('(' :: l) = findMatches l := by
  simp only [findMatches, List.length_cons, findMatchesAux]
  rw [if_pos trivial, h]

theorem findMatches_append_no_paren (p l : List Char) (h : ∀ c ∈ p, ¬(c = '(')) :
    findMatches (p ++ l) = findMatches l := by
  induction p with
  | nil => rfl
  | cons c t ih =>
    rw [List.cons_append, findMatches_cons_ne c _ (h c (List.mem_cons_self c t))]
    exact ih (fun x hx => h x (List.mem_cons_of_mem c hx))

theorem findMatches_no_paren (l : List Char) (h : ∀ c ∈ l, ¬(c = '(')) :
    findMatches l = [] := by
  induction l with
  | nil => rfl
  | cons c t ih =>
    rw [findMatches_cons_ne c _ (h c (List.mem_cons_self c t))]
    exact ih (fun x hx => h x (List.mem_cons_of_mem c hx))

theorem isDigit_ne_lparen {c : Char} (h : c.isDigit = true) : ¬(c = '(') := by
  intro he
  subst he
  exact absurd h (by decide)

/-- Scanner behaviour on the full note template: the literal prefix has no
opening parenthesis, the `C(`/`P(` group fails to match (the class letter is
not a digit), the two strike groups match, and the final `(K2 - K1)` group
fails at the space after the first number, leaving a tail with no further
parenthesis. -/
theorem findMatches_note_generic (pre : List Char) (c : Char) (d1 d2 : List Char)
    (hpre : ∀ x ∈ pre, ¬(x = '(')) (hc1 : c.isDigit = false) (hc2 : ¬(c = '('))
    (h1 : d1 ≠ []) (hd1 : ∀ x ∈ d1, x.isDigit = true)
    (h2 : d2 ≠ []) (hd2 : ∀ x ∈ d2, x.isDigit = true) :
    findMatches (pre ++ '(' :: c :: '(' ::
        (d1 ++ '.' :: '0' :: ')' :: (' ' :: '-' :: ' ' :: c :: '(' ::
          (d2 ++ '.' :: '0' :: ')' :: (')' :: ' ' :: '/' :: ' ' :: '(' ::
            (d2 ++ '.' :: '0' :: ' ' :: ('-' :: ' ' :: (d1 ++ '.' :: '0' :: [')'])))))))) =
      [d1 ++ ['.', '0'], d2 ++ ['.', '0']] := by
  rw [findMatches_append_no_paren pre _ hpre]
  rw [findMatches_paren_none _ (tryNum_nondigit c _ hc1)]
  rw [findMatches_cons_ne c _ hc2]
  rw [findMatches_paren_some _ _ _ (tryNum_num d1 _ h1 hd1)]
  rw [findMatches_cons_ne ' ' _ (by decide), findMatches_cons_ne '-' _ (by decide),
    findMatches_cons_ne ' ' _ (by decide), findMatches_cons_ne c _ hc2]
  rw [findMatches_paren_some _ _ _ (tryNum_num d2 _ h2 hd2)]
  rw [findMatches_cons_ne ')' _ (by decide), findMatches_cons_ne ' ' _ (by decide),
    findMatches_cons_ne '/' _ (by decide), findMatches_cons_ne ' ' _ (by decide)]
  rw [findMatches_paren_none _ (tryNum_num_bad d2 ' ' _ h2 hd2 (by decide) (by decide))]
  rw [findMatches_no_paren]
  intro x hx heq
  subst heq
  simp at hx
  rcases hx with hx | hx
  · exact absurd (hd2 _ hx) (by decide)
  · exact absurd (hd1 _ hx) (by decide)

/-! ### Decimal rendering and parsing round-trip -/

theorem natCharsAux_congr (n : ℕ) : ∀ f₁ f₂ : ℕ, n < f₁ → n < f₂ →
    natCharsAux f₁ n = natCharsAux f₂ n := by
  induction n using Nat.strong_induction_on with
  | _ n ih =>
    intro f₁ f₂ h₁ h₂
    cases f₁ with
    | zero => omega
    | succ g₁ =>
      cases f₂ with
      | zero => omega
      | succ g₂ =>
        simp only [natCharsAux]
        by_cases h10 : n < 10
        · rw [if_pos h10, if_pos h10]
        · rw [if_neg h10, if_neg h10]
          have hdiv : n / 10 < n := Nat.div_lt_self (by omega) (by norm_num)
          rw [ih (n / 10) hdiv g₁ g₂ (by omega) (by omega)]

theorem natChars_lt (n : ℕ) (h : n < 10) : natChars n = [Char.ofNat (48 + n)] := by
  simp only [natChars, natCharsAux]
  rw [if_pos h]

theorem natChars_ge (n : ℕ) (h : 10 ≤ n) :
    natChars n = natChars (n / 10) ++ [Char.ofNat (48 + n % 10)] := by
  have hdiv : n / 10 < n := Nat.div_lt_self (by omega) (by norm_num)
  conv_lhs => rw [natChars]
  rw [show natCharsAux (n + 1) n = if n < 10 then [Char.ofNat (48 + n)]
      else natCharsAux n (n / 10) ++ [Char.ofNat (48 + n % 10)] from rfl]
  rw [if_neg (by omega)]
  rw [natCharsAux_congr (n / 10) n (n / 10 + 1) (by omega) (by omega)]
  rfl

theorem natChars_ne_nil (n : ℕ) : natChars n ≠ [] := by
  by_cases h : n < 10
  · rw [natChars_lt n h]
    simp
  · rw [natChars_ge n (by omega)]
    simp

theorem digitChar_isDigit : ∀ d : ℕ, d < 10 → (Char.ofNat (48 + d)).isDigit = true := by
  intro d hd
  interval_cases d <;> rfl

theorem natChars_all_digit (n : ℕ) : ∀ c ∈ natChars n, c.isDigit = true := by
  induction n using Nat.strong_induction_on with
  | _ n ih =>
    by_cases h : n < 10
    · rw [natChars_lt n h]
      intro c hc
      simp only [List.mem_singleton] at hc
      subst hc
      exact digitChar_isDigit n h
    · rw [natChars_ge n (by omega)]
      intro c hc
      rcases List.mem_append.mp hc with hc | hc
      · exact ih (n / 10) (Nat.div_lt_self (by omega) (by norm_num)) c hc
      · simp only [List.mem_singleton] at hc
        subst hc
        exact digitChar_isDigit (n % 10) (Nat.mod_lt n (by norm_num))

theorem digit_toNat : ∀ d : ℕ, d < 10 → (Char.ofNat (48 + d)).toNat = 48 + d := by
  intro d hd
  interval_cases d <;> rfl

theorem digitsVal_aux (n : ℕ) : ∀ a : ℕ,
    (natChars n).foldl (fun a c => 10 * a + (c.toNat - 48)) a =
      a * 10 ^ (natChars n).length + n := by
  induction n using Nat.strong_induction_on with
  | _ n ih =>
    intro a
    by_cases h : n < 10
    · rw [natChars_lt n h]
      simp only [List.foldl, List.length_singleton, pow_one]
      rw [digit_toNat n h]
      omega
    · rw [natChars_ge n (by omega)]
      rw [List.foldl_append]
      rw [ih (n / 10) (Nat.div_lt_self (by omega) (by norm_num)) a]
      simp only [List.foldl, List.length_append, List.length_singleton]
      rw [digit_toNat (n % 10) (Nat.mod_lt n (by norm_num))]
      rw [pow_succ, ← mul_assoc]
      generalize a * 10 ^ (natChars (n / 10)).length = B
      omega

theorem digitsVal_natChars (n : ℕ) : digitsVal (natChars n) = n := by
  have h := digitsVal_aux n 0
  simpa [digitsVal] using h

theorem isDigit_bne_dot {c : Char} (h : c.isDigit = true) : (c != '.') = true := by
  by_cases hc : c = '.'
  · subst hc
    exact absurd h (by decide)
  · simp [bne_iff_ne, hc]

theorem parseFloat_natChars (n : ℕ) : parseFloatChars (natChars n ++ ['.', '0']) = (n : ℚ) := by
  have hdig := natChars_all_digit n
  unfold parseFloatChars
  rw [takeWhile_append_of (fun c => c != '.') (natChars n) '.' ['0']
    (fun a ha => isDigit_bne_dot (hdig a ha)) (by decide)]
  rw [dropWhile_append_of (fun c => c != '.') (natChars n) '.' ['0']
    (fun a ha => isDigit_bne_dot (hdig a ha)) (by decide)]
  simp only [digitsVal_natChars]
  norm_num [show digitsVal ['0'] = 0 from rfl]

theorem pyFloatChars_natCast (n : ℕ) : pyFloatChars (n : ℚ) = natChars n ++ ['.', '0'] := by
  unfold pyFloatChars
  have h0 : ¬((n : ℚ) < 0) := not_lt.mpr (by positivity)
  rw [if_neg h0]
  have habs : |(n : ℚ)| = (n : ℚ) := abs_of_nonneg (by positivity)
  rw [habs, Rat.num_natCast, Rat.den_natCast]
  simp [Int.toNat_natCast, sub_self]

/-! ### The note template round-trip -/

theorem noteCall_shape (a b : ℕ) :
    noteCall (a : ℚ) (b : ℚ) = "Binary call approx by ".toList ++ '(' :: 'C' :: '(' ::
      (natChars a ++ '.' :: '0' :: ')' :: (' ' :: '-' :: ' ' :: 'C' :: '(' ::
        (natChars b ++ '.' :: '0' :: ')' :: (')' :: ' ' :: '/' :: ' ' :: '(' ::
          (natChars b ++ '.' :: '0' :: ' ' ::
            ('-' :: ' ' :: (natChars a ++ '.' :: '0' :: [')'])))))))  := by
  have e1 : "Binary call approx by (C(".toList
      = "Binary call approx by ".toList ++ ['(', 'C', '('] := by decide
  have e2 : ") - C(".toList = [')', ' ', '-', ' ', 'C', '('] := by decide
  have e3 : ")) / (".toList = [')', ')', ' ', '/', ' ', '('] := by decide
  have e4 : " - ".toList = [' ', '-', ' '] := by decide
  have e5 : ")".toList = [')'] := by decide
  rw [noteCall, pyFloatChars_natCast, pyFloatChars_natCast, e1, e2, e3, e4, e5]
  simp [List.append_assoc]

theorem notePut_shape (a b : ℕ) :
    notePut (a : ℚ) (b : ℚ) = "Binary put approx by ".toList ++ '(' :: 'P' :: '(' ::
      (natChars a ++ '.' :: '0' :: ')' :: (' ' :: '-' :: ' ' :: 'P' :: '(' ::
        (natChars b ++ '.' :: '0' :: ')' :: (')' :: ' ' :: '/' :: ' ' :: '(' ::
          (natChars b ++ '.' :: '0' :: ' ' ::
            ('-' :: ' ' :: (natChars a ++ '.' :: '0' :: [')'])))))))  := by
  have e1 : "Binary put approx by (P(".toList
      = "Binary put approx by ".toList ++ ['(', 'P', '('] := by decide
  have e2 : ") - P(".toList = [')', ' ', '-', ' ', 'P', '('] := by decide
  have e3 : ")) / (".toList = [')', ')', ' ', '/', ' ', '('] := by decide
  have e4 : " - ".toList = [' ', '-', ' '] := by decide
  have e5 : ")".toList = [')'] := by decide
  rw [notePut, pyFloatChars_natCast, pyFloatChars_natCast, e1, e2, e3, e4, e5]
  simp [List.append_assoc]

theorem findMatches_noteCall (a b : ℕ) :
    findMatches (noteCall (a : ℚ) (b : ℚ)) =
      [natChars a ++ ['.', '0'], natChars b ++ ['.', '0']] := by
  rw [noteCall_shape]
  exact findMatches_note_generic _ 'C' _ _ (by decide) (by decide) (by decide)
    (natChars_ne_nil a) (natChars_all_digit a) (natChars_ne_nil b) (natChars_all_digit b)

theorem findMatches_notePut (a b : ℕ) :
    findMatches (notePut (a : ℚ) (b : ℚ)) =
      [natChars a ++ ['.', '0'], natChars b ++ ['.', '0']] := by
  rw [notePut_shape]
  exact findMatches_note_generic _ 'P' _ _ (by decide) (by decide) (by decide)
    (natChars_ne_nil a) (natChars_all_digit a) (natChars_ne_nil b) (natChars_all_digit b)

theorem parsedStrikes_noteCall (a b : ℕ) :
    parsedStrikes (noteCall (a : ℚ) (b : ℚ)) = some ((a : ℚ), (b : ℚ)) := by
  unfold parsedStrikes
  rw [findMatches_noteCall]
  show some (parseFloatChars (natChars a ++ ['.', '0']),
    parseFloatChars (natChars b ++ ['.', '0'])) = _
  rw [parseFloat_natChars, parseFloat_natChars]

theorem parsedStrikes_notePut (a b : ℕ) :
    parsedStrikes (notePut (a : ℚ) (b : ℚ)) = some ((a : ℚ), (b : ℚ)) := by
  unfold parsedStrikes
  rw [findMatches_notePut]
  show some (parseFloatChars (natChars a ++ ['.', '0']),
    parseFloatChars (natChars b ++ ['.', '0'])) = _
  rw [parseFloat_natChars, parseFloat_natChars]

theorem getD_mem {l : List ℚ} {i : ℕ} (h : i < l.length) : l.getD i 0 ∈ l := by
  rw [List.getD_eq_getElem l 0 h]
  exact List.getElem_mem h

theorem selectCallStrikes_mem {l : List ℚ} {s p K1 K2 : ℚ}
    (h : selectCallStrikes l s p = some (K1, K2)) : K1 ∈ l ∧ K2 ∈ l := by
  rcases selectCallStrikes_elim h with ⟨h1, h2, e1, e2⟩
  exact ⟨e1 ▸ getD_mem h1, e2 ▸ getD_mem h2⟩

theorem selectPutStrikes_mem {l : List ℚ} {s p K1 K2 : ℚ}
    (h : selectPutStrikes l s p = some (K1, K2)) : K1 ∈ l ∧ K2 ∈ l := by
  rcases selectPutStrikes_elim h with ⟨h2, h1, e1, e2⟩
  have hl2 := searchsortedRight_le_length l s
  have hl1 := searchsortedRight_le_length l (s - p)
  exact ⟨e1 ▸ getD_mem (by omega), e2 ▸ getD_mem (by omega)⟩

theorem availableStrikes_nat (data : List OptionRecord) (option_type : String) (e : ℤ)
    (hnat : ∀ rec ∈ data, ∃ n : ℕ, rec.strike = (n : ℚ)) :
    ∀ K ∈ availableStrikes data option_type e, ∃ n : ℕ, K = (n : ℚ) := by
  intro K hK
  rw [availableStrikes, mem_sortedUnique] at hK
  rcases List.mem_map.mp hK with ⟨rec, hrec, hKe⟩
  have hmem : rec ∈ data := by
    rw [df_class] at hrec
    exact (List.mem_filter.mp ((List.mem_filter.mp hrec).1)).1
  rcases hnat rec hmem with ⟨n, hn⟩
  subst hKe
  exact ⟨n, hn⟩

/-- C7.  Round-trip of the strikes through the note string: for every
successful replication (on a table whose strikes are integer-valued, where
Python's float rendering is plain decimal), the strike pair the payoff
evaluator extracts from the result's note by matching parenthesized numbers
is exactly the pair the selector chose. -/
theorem note_round_trip (data : List OptionRecord) (option_type : String)
    (s : ℚ) (e : ℤ) (p : ℚ) (r : ReplicationResult)
    (hnat : ∀ rec ∈ data, ∃ n : ℕ, rec.strike = (n : ℚ))
    (h : replicate_binary_option data option_type s e p = .ok r) :
    ∃ K1 K2 : ℚ,
      (selectCallStrikes (availableStrikes data "call" e) s p = some (K1, K2) ∨
        selectPutStrikes (availableStrikes data "put" e) s p = some (K1, K2)) ∧
      parsedStrikes r.note = some (K1, K2) := by
  by_cases hc : option_type = "call"
  · subst hc
    rcases replicate_call_ok_elim h with ⟨K1, K2, opt1, opt2, hsel, hf1, hf2, hr⟩
    rcases availableStrikes_nat data "call" e hnat K1 (selectCallStrikes_mem hsel).1
      with ⟨n1, hn1⟩
    rcases availableStrikes_nat data "call" e hnat K2 (selectCallStrikes_mem hsel).2
      with ⟨n2, hn2⟩
    refine ⟨K1, K2, Or.inl hsel, ?_⟩
    have hnote : r.note = noteCall K1 K2 := by rw [hr]
    rw [hnote, hn1, hn2]
    exact parsedStrikes_noteCall n1 n2
  · by_cases hpt : option_type = "put"
    · subst hpt
      rcases replicate_put_ok_elim h with ⟨K1, K2, opt1, opt2, hsel, hf1, hf2, hr⟩
      rcases availableStrikes_nat data "put" e hnat K1 (selectPutStrikes_mem hsel).1
        with ⟨n1, hn1⟩
      rcases availableStrikes_nat data "put" e hnat K2 (selectPutStrikes_mem hsel).2
        with ⟨n2, hn2⟩
      refine ⟨K1, K2, Or.inr hsel, ?_⟩
      have hnote : r.note = notePut K1 K2 := by rw [hr]
      rw [hnote, hn1, hn2]
      exact parsedStrikes_notePut n1 n2
    · rw [replicate_invalid_def data option_type s e p hc hpt] at h
      exact absurd h (by simp)

/-- Witness for C7: the concrete call replication on `callTable` carries
note strikes 10000/10500, which parse back to the selected pair. -/
theorem note_round_trip_witness :
    ∃ K1 K2 : ℚ,
      (selectCallStrikes (availableStrikes callTable "call" 0) 10000 500 = some (K1, K2) ∨
        selectPutStrikes (availableStrikes callTable "put" 0) 10000 500 = some (K1, K2)) ∧
      parsedStrikes (noteCall 10000 10500) = some (K1, K2) :=
  note_round_trip callTable "call" 10000 0 500
    { option_1 := { instrument := "C10000", weight := 1 / (10500 - 10000), cost := 30 }
      option_2 := { instrument := "C10500", weight := -1 / (10500 - 10000), cost := 40 }
      note := noteCall 10000 10500
      total_cost := 1 / (10500 - 10000) * 30 + -1 / (10500 - 10000) * 40 }
    (by
      intro rec hrec
      simp only [callTable, List.mem_cons, List.not_mem_nil, or_false] at hrec
      rcases hrec with rfl | rfl
      · exact ⟨10000, by norm_num⟩
      · exact ⟨10500, by norm_num⟩)
    (by rw [replicate_call_def, callTable_select]
        rfl)

/-! ### Payoff evaluator -/

theorem linspace_length (a b : ℚ) (n : ℕ) : (linspace a b n).length = n := by
  rw [linspace, List.length_map, List.length_range]

theorem linspace_getD (a b : ℚ) (n i : ℕ) (h : i < n) :
    (linspace a b n).getD i 0 = a + (b - a) * (i : ℚ) / ((n : ℚ) - 1) := by
  have hlen : i < (linspace a b n).length := by rw [linspace_length]; exact h
  rw [List.getD_eq_getElem _ 0 hlen]
  simp only [linspace, List.getElem_map, List.getElem_range]

theorem zipWith_map_same (f : ℚ → ℚ → ℚ) (g h : ℚ → ℚ) (l : List ℚ) :
    List.zipWith f (l.map g) (l.map h) = l.map (fun x => f (g x) (h x)) := by
  induction l with
  | nil => rfl
  | cons a t ih => simp [ih]

theorem plot_call_eval (strike K1 K2 w1 w2 : ℚ) (note : List Char) (u v : List Char)
    (prices : List ℚ) (hfm : findMatches note = [u, v])
    (hu : parseFloatChars u = K1) (hv : parseFloatChars v = K2) :
    plot_binary_replication_payoff strike "call" ⟨some note, some w1, some w2⟩ (some prices) =
      .ok { prices := prices
            ideal := prices.map (fun S => if strike ≤ S then (1 : ℚ) else 0)
            replicated := prices.map (fun S => w1 * max (S - K1) 0 + w2 * max (S - K2) 0) } := by
  unfold plot_binary_replication_payoff
  simp only [Option.getD_some, hfm, hu, hv, if_true]
  rw [zipWith_map_same]

theorem plot_put_eval (strike K1 K2 w1 w2 : ℚ) (note : List Char) (u v : List Char)
    (prices : List ℚ) (hfm : findMatches note = [u, v])
    (hu : parseFloatChars u = K1) (hv : parseFloatChars v = K2) :
    plot_binary_replication_payoff strike "put" ⟨some note, some w1, some w2⟩ (some prices) =
      .ok { prices := prices
            ideal := prices.map (fun S => if S ≤ strike then (1 : ℚ) else 0)
            replicated := prices.map (fun S => w1 * max (K1 - S) 0 + w2 * max (K2 - S) 0) } := by
  unfold plot_binary_replication_payoff
  simp only [Option.getD_some, hfm, hu, hv,
    show (("put" : String) = "call") = False from by simp, if_false, if_true]
  rw [zipWith_map_same]

/-- C6.  The payoff evaluator: with no explicit range it uses 500 evenly
spaced prices spanning `[0.5·strike, 1.5·strike]`; the ideal payoff is the
0/1 step at the strike (`≥` for calls, `≤` for puts); the replicated payoff
is `w1·vanilla(S,K1) + w2·vanilla(S,K2)` elementwise with `max(S−K,0)` for
calls and `max(K−S,0)` for puts; and in the concrete scenario
strike 10000, K1 = 10000, K2 = 10500, weights ±1/500, the replicated value
at price 10250 is 1/2 while the ideal there is 1. -/
theorem payoff_evaluator_spec (strike : ℚ) (K1 K2 : ℕ) (w1 w2 : ℚ) (prices : List ℚ) :
    (linspace (strike * (1 / 2)) (strike * (3 / 2)) 500).length = 500 ∧
    (∀ i : ℕ, i < 500 → (linspace (strike * (1 / 2)) (strike * (3 / 2)) 500).getD i 0 =
      strike * (1 / 2) + (strike * (3 / 2) - strike * (1 / 2)) * (i : ℚ) / 499) ∧
    (∀ (option_type : String) (repl : ReplicationDict),
      plot_binary_replication_payoff strike option_type repl none =
        plot_binary_replication_payoff strike option_type repl
          (some (linspace (strike * (1 / 2)) (strike * (3 / 2)) 500))) ∧
    plot_binary_replication_payoff strike "call"
        ⟨some (noteCall (K1 : ℚ) (K2 : ℚ)), some w1, some w2⟩ (some prices) =
      .ok { prices := prices
            ideal := prices.map (fun S => if strike ≤ S then (1 : ℚ) else 0)
            replicated := prices.map
              (fun S => w1 * max (S - (K1 : ℚ)) 0 + w2 * max (S - (K2 : ℚ)) 0) } ∧
    plot_binary_replication_payoff strike "put"
        ⟨some (notePut (K1 : ℚ) (K2 : ℚ)), some w1, some w2⟩ (some prices) =
      .ok { prices := prices
            ideal := prices.map (fun S => if S ≤ strike then (1 : ℚ) else 0)
            replicated := prices.map
              (fun S => w1 * max ((K1 : ℚ) - S) 0 + w2 * max ((K2 : ℚ) - S) 0) } ∧
    plot_binary_replication_payoff 10000 "call"
        ⟨some (noteCall 10000 10500), some (1 / 500), some (-(1 / 500))⟩ (some [10250]) =
      .ok { prices := [10250], ideal := [1], replicated := [1 / 2] } := by
  refine ⟨linspace_length _ _ 500, ?_, ?_, ?_, ?_, ?_⟩
  · intro i hi
    rw [linspace_getD _ _ 500 i hi]
    norm_num
  · intro option_type repl
    rfl
  · exact plot_call_eval strike (K1 : ℚ) (K2 : ℚ) w1 w2 _ _ _ prices
      (findMatches_noteCall K1 K2) (parseFloat_natChars K1) (parseFloat_natChars K2)
  · exact plot_put_eval strike (K1 : ℚ) (K2 : ℚ) w1 w2 _ _ _ prices
      (findMatches_notePut K1 K2) (parseFloat_natChars K1) (parseFloat_natChars K2)
  · have hc1 : (10000 : ℚ) = ((10000 : ℕ) : ℚ) := by norm_num
    have hc2 : (10500 : ℚ) = ((10500 : ℕ) : ℚ) := by norm_num
    rw [show (noteCall 10000 10500 : List Char)
        = noteCall ((10000 : ℕ) : ℚ) ((10500 : ℕ) : ℚ) by rw [← hc1, ← hc2]]
    rw [plot_call_eval 10000 ((10000 : ℕ) : ℚ) ((10500 : ℕ) : ℚ) (1 / 500) (-(1 / 500)) _ _ _
      [10250] (findMatches_noteCall 10000 10500) (parseFloat_natChars 10000)
      (parseFloat_natChars 10500)]
    norm_num [max_def]

/-- Witness for C6: the default grid's first sample point equals the lower
end of the span. -/
theorem payoff_evaluator_spec_witness :
    (linspace ((10000 : ℚ) * (1 / 2)) (10000 * (3 / 2)) 500).getD 0 0 =
      10000 * (1 / 2) + (10000 * (3 / 2) - 10000 * (1 / 2)) * ((0 : ℕ) : ℚ) / 499 :=
  (payoff_evaluator_spec 10000 10000 10500 (1 / 500) (-(1 / 500)) [10250]).2.1 0 (by norm_num)

theorem putTable_select :
    selectPutStrikes (availableStrikes putTable "put" 0) 10000 500 = some (9500, 10000) := by
  norm_num [availableStrikes, df_class, putTable, sortedUnique, List.dedup, List.pwFilter,
    List.insertionSort, List.orderedInsert, selectPutStrikes, searchsortedRight]

/-- C1 evidence.  Call side: a successful call replication on strikes
{10000, 10500} produces a curve that matches the ideal binary call outside
the spread, 0 at the price 9500 ≤ K1 and 1 at the price 11000 ≥ K2, as the
claim states.  Put side (refutation): a successful put replication on the
strike set {9500, 10000} with target 10000 and precision 500 selects
`K1 = 9500 < K2 = 10000`, yet the replicated payoff curve at the price
9000 ≤ K1 evaluates to −1, where the claim (and the ideal binary put) says
it should be 1; at the price 10500 ≥ K2 it is 0 as claimed.  The put branch
assigns weight `+1/(K2−K1)` to the K1-put and `−1/(K2−K1)` to the K2-put,
the negative of the digital-put spread. -/
theorem put_payoff_sign_defect :
    (∃ r, replicate_binary_option callTable "call" 10000 0 500 = .ok r ∧
      plot_binary_replication_payoff 10000 "call" (toDict r) (some [9500, 11000]) =
        .ok { prices := [9500, 11000], ideal := [0, 1], replicated := [0, 1] }) ∧
    (∃ r, replicate_binary_option putTable "put" 10000 0 500 = .ok r ∧
      plot_binary_replication_payoff 10000 "put" (toDict r) (some [9000, 10500]) =
        .ok { prices := [9000, 10500], ideal := [1, 0], replicated := [-1, 0] }) := by
  constructor
  · refine ⟨{ option_1 := { instrument := "C10000", weight := 1 / (10500 - 10000), cost := 30 }
              option_2 := { instrument := "C10500", weight := -1 / (10500 - 10000), cost := 40 }
              note := noteCall 10000 10500
              total_cost := 1 / (10500 - 10000) * 30 + -1 / (10500 - 10000) * 40 }, ?_, ?_⟩
    · rw [replicate_call_def, callTable_select]
      rfl
    · show plot_binary_replication_payoff 10000 "call"
        ⟨some (noteCall 10000 10500), some (1 / (10500 - 10000)), some (-1 / (10500 - 10000))⟩
        (some [9500, 11000]) = _
      have hc1 : (10000 : ℚ) = ((10000 : ℕ) : ℚ) := by norm_num
      have hc2 : (10500 : ℚ) = ((10500 : ℕ) : ℚ) := by norm_num
      rw [show (noteCall 10000 10500 : List Char)
          = noteCall ((10000 : ℕ) : ℚ) ((10500 : ℕ) : ℚ) by rw [← hc1, ← hc2]]
      rw [plot_call_eval 10000 ((10000 : ℕ) : ℚ) ((10500 : ℕ) : ℚ) (1 / (10500 - 10000))
        (-1 / (10500 - 10000)) _ _ _ [9500, 11000] (findMatches_noteCall 10000 10500)
        (parseFloat_natChars 10000) (parseFloat_natChars 10500)]
      norm_num [max_def]
  · refine ⟨{ option_1 := { instrument := "P9500", weight := 1 / (10000 - 9500), cost := 20 }
              option_2 := { instrument := "P10000", weight := -1 / (10000 - 9500), cost := 30 }
              note := notePut 9500 10000
              total_cost := 1 / (10000 - 9500) * 20 + -1 / (10000 - 9500) * 30 }, ?_, ?_⟩
    · rw [replicate_put_def, putTable_select]
      rfl
    · show plot_binary_replication_payoff 10000 "put"
        ⟨some (notePut 9500 10000), some (1 / (10000 - 9500)), some (-1 / (10000 - 9500))⟩
        (some [9000, 10500]) = _
      have hc1 : (9500 : ℚ) = ((9500 : ℕ) : ℚ) := by norm_num
      have hc2 : (10000 : ℚ) = ((10000 : ℕ) : ℚ) := by norm_num
      rw [show (notePut 9500 10000 : List Char)
          = notePut ((9500 : ℕ) : ℚ) ((10000 : ℕ) : ℚ) by rw [← hc1, ← hc2]]
      rw [plot_put_eval 10000 ((9500 : ℕ) : ℚ) ((10000 : ℕ) : ℚ) (1 / (10000 - 9500))
        (-1 / (10000 - 9500)) _ _ _ [9000, 10500] (findMatches_notePut 9500 10000)
        (parseFloat_natChars 9500) (parseFloat_natChars 10000)]
      norm_num [max_def]

end Polyarb
